import Mathlib

/-!
Verification development for the auto-publish pipeline of the
`square_publisher` repository.

The definitions below are a shallow embedding of the JavaScript source:

* `SquarePub.Json`, `SquarePub.jsonParse` — the fragment of `JSON.parse`
  semantics exercised by `moderatePostContent` in `src/lib/openai.js`;
* `SquarePub.moderatePostContent` — the response-parsing stage of the
  moderation adapter (`src/lib/openai.js`, `moderatePostContent`), i.e. the
  function from the raw model message content to the returned verdict.
  Transport and credential failures happen before this stage and propagate
  as exceptions; they are modelled at the worker layer as `Except.error`;
* the worker (`src/lib/auto-publish-worker.js`): selection predicates,
  per-post updates, the two sweep phases, `workerTick`,
  `schedulePostForAutoPublish`;
* the ingest auto-publish branch of `src/routes/ingest.js`;
* `sendModerationRejectionEmail` from the email module.

Timestamps are modelled as `Nat` (the code stores ISO-8601 strings, whose
lexicographic order agrees with chronological order; SQL comparisons carry
over). The worker reads `new Date()` once per loop iteration; the model
collapses this to one clock value per phase, which no claim distinguishes.
-/

namespace SquarePub

/-- The opening brace character, written via an escape. -/
def lbrace : Char := '\x7b'

/-- The closing brace character, written via an escape. -/
def rbrace : Char := '\x7d'

/-- JSON values as produced by `JSON.parse`.  Numbers keep their raw
literal text; only zero-ness matters for JS truthiness and no claim
depends on numeric values. -/
inductive Json where
  | null : Json
  | bool : Bool → Json
  | num : String → Json
  | str : String → Json
  | arr : List Json → Json
  | obj : List (String × Json) → Json
deriving Repr, Inhabited

/-- JSON whitespace accepted by `JSON.parse` (space, tab, LF, CR). -/
def isJsonWs (c : Char) : Bool :=
  c == ' ' || c == '\t' || c == '\n' || c == '\r'

/-- Drop leading JSON whitespace. -/
def skipWs : List Char → List Char
  | [] => []
  | c :: cs => if isJsonWs c then skipWs cs else c :: cs

/-- Hex digit value, for `\uXXXX` escapes. -/
def hexVal (c : Char) : Option Nat :=
  if '0' ≤ c ∧ c ≤ '9' then some (c.toNat - '0'.toNat)
  else if 'a' ≤ c ∧ c ≤ 'f' then some (c.toNat - 'a'.toNat + 10)
  else if 'A' ≤ c ∧ c ≤ 'F' then some (c.toNat - 'A'.toNat + 10)
  else none

/-- Parse the body of a JSON string after the opening quote, returning the
decoded characters and the input remaining after the closing quote. -/
def parseStringBody : Nat → List Char → Option (List Char × List Char)
  | 0, _ => none
  | _ + 1, [] => none
  | fuel + 1, c :: cs =>
    if c == '"' then
      some ([], cs)
    else if c == '\\' then
      match cs with
      | [] => none
      | e :: cs' =>
        let decoded : Option (Char × List Char) :=
          if e == '"' then some ('"', cs')
          else if e == '\\' then some ('\\', cs')
          else if e == '/' then some ('/', cs')
          else if e == 'b' then some ('\x08', cs')
          else if e == 'f' then some ('\x0c', cs')
          else if e == 'n' then some ('\n', cs')
          else if e == 'r' then some ('\r', cs')
          else if e == 't' then some ('\t', cs')
          else if e == 'u' then
            match cs' with
            | h1 :: h2 :: h3 :: h4 :: rest =>
              match hexVal h1, hexVal h2, hexVal h3, hexVal h4 with
              | some v1, some v2, some v3, some v4 =>
                some (Char.ofNat (((v1 * 16 + v2) * 16 + v3) * 16 + v4), rest)
              | _, _, _, _ => none
            | _ => none
          else none
        match decoded with
        | some (d, rest) =>
          match parseStringBody fuel rest with
          | some (tail, rem) => some (d :: tail, rem)
          | none => none
        | none => none
    else if c.toNat < 0x20 then
      none
    else
      match parseStringBody fuel cs with
      | some (tail, rem) => some (c :: tail, rem)
      | none => none

/-- Span of decimal digits at the front of the input. -/
def spanDigits : List Char → List Char × List Char
  | [] => ([], [])
  | c :: cs =>
    if c.isDigit then
      let (ds, rest) := spanDigits cs
      (c :: ds, rest)
    else
      ([], c :: cs)

/-- Parse a JSON number literal (RFC 8259 grammar), returning its raw text
and the remaining input. -/
def parseNumberRaw (cs : List Char) : Option (List Char × List Char) :=
  let (sign, cs₁) :=
    match cs with
    | '-' :: rest => (['-'], rest)
    | _ => (([] : List Char), cs)
  match cs₁ with
  | [] => none
  | c :: rest =>
    if ¬ c.isDigit then none
    else
      let (intPart, cs₂) :=
        if c == '0' then ([c], rest)
        else
          let (ds, r) := spanDigits rest
          (c :: ds, r)
      let fracParse : Option (List Char × List Char) :=
        match cs₂ with
        | '.' :: r =>
          let (ds, r') := spanDigits r
          if ds.isEmpty then none else some ('.' :: ds, r')
        | _ => some ([], cs₂)
      match fracParse with
      | none => none
      | some (fracPart, cs₃) =>
        let expParse : Option (List Char × List Char) :=
          match cs₃ with
          | e :: r =>
            if e == 'e' ∨ e == 'E' then
              let (esign, r₁) :=
                match r with
                | '+' :: r' => (['+'], r')
                | '-' :: r' => (['-'], r')
                | _ => (([] : List Char), r)
              let (ds, r₂) := spanDigits r₁
              if ds.isEmpty then none else some (e :: (esign ++ ds), r₂)
            else some ([], e :: r)
          | [] => some ([], [])
        match expParse with
        | none => none
        | some (expPart, cs₄) =>
          some (sign ++ intPart ++ fracPart ++ expPart, cs₄)

mutual

/-- Parse one JSON value (after an arbitrary prefix of whitespace). -/
def parseValue : Nat → List Char → Option (Json × List Char)
  | 0, _ => none
  | fuel + 1, cs =>
    match skipWs cs with
    | [] => none
    | c :: rest =>
      if c == '"' then
        match parseStringBody (fuel + 1) rest with
        | some (body, rem) => some (.str (String.mk body), rem)
        | none => none
      else if c == lbrace then
        parseMembers fuel rest true []
      else if c == '[' then
        parseElements fuel rest true []
      else if c == 't' then
        match rest with
        | 'r' :: 'u' :: 'e' :: rem => some (.bool true, rem)
        | _ => none
      else if c == 'f' then
        match rest with
        | 'a' :: 'l' :: 's' :: 'e' :: rem => some (.bool false, rem)
        | _ => none
      else if c == 'n' then
        match rest with
        | 'u' :: 'l' :: 'l' :: rem => some (.null, rem)
        | _ => none
      else
        match parseNumberRaw (c :: rest) with
        | some (raw, rem) => some (.num (String.mk raw), rem)
        | none => none

/-- Parse the members of a JSON object, after the opening brace.
`first` is true when no member has been consumed yet. -/
def parseMembers : Nat → List Char → Bool → List (String × Json) →
    Option (Json × List Char)
  | 0, _, _, _ => none
  | fuel + 1, cs, first, acc =>
    match skipWs cs with
    | [] => none
    | c :: rest =>
      if c == rbrace ∧ first then
        some (.obj acc.reverse, rest)
      else
        let afterSep :
            Option (List Char) :=
          if first then some (c :: rest)
          else if c == ',' then some rest
          else none
        match afterSep with
        | none => none
        | some cs₁ =>
          match skipWs cs₁ with
          | '"' :: cs₂ =>
            match parseStringBody (fuel + 1) cs₂ with
            | some (keyChars, cs₃) =>
              match skipWs cs₃ with
              | ':' :: cs₄ =>
                match parseValue fuel cs₄ with
                | some (v, cs₅) =>
                  match skipWs cs₅ with
                  | d :: cs₆ =>
                    if d == rbrace then
                      some (.obj ((String.mk keyChars, v) :: acc).reverse, cs₆)
                    else if d == ',' then
                      parseMembers fuel (',' :: cs₆) false
                        ((String.mk keyChars, v) :: acc)
                    else none
                  | [] => none
                | none => none
              | _ => none
            | none => none
          | _ => none

/-- Parse the elements of a JSON array, after the opening bracket. -/
def parseElements : Nat → List Char → Bool → List Json →
    Option (Json × List Char)
  | 0, _, _, _ => none
  | fuel + 1, cs, first, acc =>
    match skipWs cs with
    | [] => none
    | c :: rest =>
      if c == ']' ∧ first then
        some (.arr acc.reverse, rest)
      else
        let cs₁ : Option (List Char) :=
          if first then some (c :: rest)
          else if c == ',' then some rest
          else none
        match cs₁ with
        | none => none
        | some cs₂ =>
          match parseValue fuel cs₂ with
          | some (v, cs₃) =>
            match skipWs cs₃ with
            | d :: cs₄ =>
              if d == ']' then
                some (.arr (v :: acc).reverse, cs₄)
              else if d == ',' then
                parseElements fuel (',' :: cs₄) false (v :: acc)
              else none
            | [] => none
          | none => none

end

/-- `JSON.parse`: parse a complete JSON document; trailing non-whitespace
input is an error. -/
def jsonParse (s : String) : Option Json :=
  match parseValue (2 * s.length + 2) s.data with
  | some (j, rest) => if (skipWs rest).isEmpty then some j else none
  | none => none

/-- Is a JSON number literal zero?  True exactly when every mantissa digit
is `0` (covers `0`, `-0`, `0.00`, `0e9`, ...). -/
def numIsZero (raw : String) : Bool :=
  let cs := match raw.data with
    | '-' :: t => t
    | l => l
  let mant := cs.takeWhile (fun c => c ≠ 'e' ∧ c ≠ 'E')
  mant.all (fun c => c == '0' || c == '.')

/-- JavaScript truthiness of a parsed JSON value (`Boolean(v)`). -/
def truthy : Json → Bool
  | .null => false
  | .bool b => b
  | .num raw => ¬ numIsZero raw
  | .str s => ¬ s.isEmpty
  | .arr _ => true
  | .obj _ => true

/-- Property access `v[k]` on a parsed JSON value: `none` plays the role
of JavaScript `undefined` (missing key, or a non-object receiver).
`JSON.parse` keeps the last of duplicate keys, hence the reversed lookup. -/
def getProp : Json → String → Option Json
  | .obj kvs, k => (kvs.reverse.find? (fun kv => kv.1 == k)).map (·.2)
  | _, _ => none

/-- Truthiness of a possibly-undefined value (`Boolean(undefined) = false`). -/
def truthyOpt : Option Json → Bool
  | none => false
  | some v => truthy v

/-- The verdict object returned by `moderatePostContent`.  `reason` is a
JSON value because the code passes `result.reason` through untouched when
it is truthy (`result.reason || ''`). -/
structure Verdict where
  is_approved : Bool
  reason : Json
deriving Repr

/-- The synthetic rejection verdict the adapter returns when it cannot
obtain a verdict from the model output. -/
def invalidJsonVerdict : Verdict :=
  ⟨false, .str "Invalid JSON response from moderation LLM"⟩

/-- `\x7b return \x7d is_approved: Boolean(result.is_approved),
reason: result.reason || '' \x7d` applied to the parsed value. -/
def verdictOfJson (j : Json) : Verdict :=
  { is_approved := truthyOpt (getProp j "is_approved")
    reason :=
      match getProp j "reason" with
      | some v => if truthy v then v else .str ""
      | none => .str "" }

/-- Whitespace removed by JavaScript `String.prototype.trim`. -/
def isJsWhitespace (c : Char) : Bool :=
  c == ' ' || c == '\t' || c == '\n' || c == '\r' || c == '\x0b' ||
    c == '\x0c' || c == '\xa0' || c == ' ' || c == ' ' ||
    c == '﻿'

/-- JavaScript `content.trim()`: strip whitespace from both ends. -/
def jsTrim (s : String) : String :=
  String.mk
    (((s.data.dropWhile isJsWhitespace).reverse.dropWhile
        isJsWhitespace).reverse)

/-- Index of the last occurrence of `c` in `cs`. -/
def lastIdxOf (c : Char) (cs : List Char) : Option Nat :=
  match cs.reverse.findIdx? (fun d => d == c) with
  | some k => some (cs.length - 1 - k)
  | none => none

/-- The span matched by the regex `/\x7b[\s\S]*\x7d/` on `s`: from the
first opening brace to the last closing brace (leftmost-greedy), when the
last closing brace lies strictly after the first opening brace. -/
def extractBraceSpan (s : String) : Option String :=
  let cs := s.data
  match cs.findIdx? (fun c => c == lbrace), lastIdxOf rbrace cs with
  | some b, some e =>
    if b < e then some (String.mk ((cs.drop b).take (e - b + 1))) else none
  | _, _ => none

/-- The response-parsing stage of `moderatePostContent`
(`src/lib/openai.js`): trim the message content, substitute the regex
match for the content when one exists, `JSON.parse` it, and build the
verdict; any parse error — including the property access throwing when the
parsed value is `null` — is caught and downgraded to `invalidJsonVerdict`.
The function is total: malformed model output never escapes as an
exception. -/
def moderatePostContent (content : String) : Verdict :=
  let trimmed := jsTrim content
  let jsonStr := (extractBraceSpan trimmed).getD trimmed
  match jsonParse jsonStr with
  | none => invalidJsonVerdict
  | some .null => invalidJsonVerdict
  | some j => verdictOfJson j

/-- Modelled from the spec: the spec's parsing policy "scan for the first
balanced `\x7b...\x7d` span" (no such scan exists in the source; the code
uses the greedy regex modelled by `extractBraceSpan`).  This definition
exists only to compare the spec's wording against the code. -/
def firstBalancedBraceSpan (s : String) : Option String :=
  let rec walk : List Char → Nat → List Char → Option (List Char)
    | [], _, _ => none
    | c :: rest, depth, acc =>
      if c == rbrace then
        if depth == 1 then some (acc ++ [c])
        else walk rest (depth - 1) (acc ++ [c])
      else if c == lbrace then walk rest (depth + 1) (acc ++ [c])
      else walk rest depth (acc ++ [c])
  match s.data.dropWhile (fun c => c ≠ lbrace) with
  | [] => none
  | c :: rest => (walk rest 1 [c]).map String.mk

/-! ## The post store and the worker (`src/lib/auto-publish-worker.js`) -/

/-- A row of the `posts` table, restricted to the columns this subsystem
reads or writes.  Timestamps are `Nat`; `status` is one of `draft`,
`published`, `archived`, `warning` (CHECK constraint of migration 014). -/
structure Post where
  id : Nat
  text : String
  client_key : Option String
  status : String
  publish_at : Option Nat
  moderation_checked_at : Option Nat
  moderation_reason : Option String
  pub_date : Option Nat
  updated_at : Nat
deriving Repr, DecidableEq

/-- A row of the `users` table as seen by this subsystem
(`getUserByClientKey` is not part of the provided sources; the spec's
owner-lookup interface provides `email` and `auto_publish_enabled`, and
the worker and ingest route are parameterised over the lookup). -/
structure User where
  email : String
  auto_publish_enabled : Bool
deriving Repr, DecidableEq

/-- An owner lookup `getUserByClientKey`: `client_key → user or null`. -/
abbrev Lookup := String → Option User

/-- The moderation verdict as consumed by the worker, matching the
adapter contract `\x7bis_approved: boolean, reason: string\x7d`.  The
worker is parameterised over the adapter call, which may also throw
(`Except.error` carries the exception message). -/
structure ModVerdict where
  is_approved : Bool
  reason : String
deriving Repr, DecidableEq

/-- An adapter call: post text to verdict, or a thrown exception. -/
abbrev Adapter := String → Except String ModVerdict

/-- The arguments of a `sendModerationRejectionEmail` call made by the
worker's rejection branch. -/
structure Notification where
  postId : Nat
  postText : String
  userEmail : String
  reason : String
deriving Repr, DecidableEq

/-- Selection predicate of the phase-1 moderation sweep:
`publish_at IS NOT NULL AND moderation_checked_at IS NULL AND
status = 'draft'`. -/
def pendingModerationPred (p : Post) : Bool :=
  p.publish_at.isSome && p.moderation_checked_at.isNone && p.status == "draft"

/-- The phase-1 batch: matching rows, `LIMIT 5`. -/
def selectPendingModeration (db : List Post) : List Post :=
  (db.filter pendingModerationPred).take 5

/-- `UPDATE posts SET ... WHERE id = ?`: apply `f` to every row whose id
matches (ids are unique in SQL; the list model keeps the `WHERE` form). -/
def updateById (db : List Post) (i : Nat) (f : Post → Post) : List Post :=
  db.map (fun p => if p.id == i then f p else p)

/-- The row update performed for one post of the phase-1 batch, by
adapter outcome: approval keeps status and `publish_at` and records the
check; rejection flips status to `warning`, records reason, and clears
`publish_at`; a thrown adapter call records `Moderation error: <message>`
and touches nothing else. -/
def applyModeration (now : Nat) (outcome : Except String ModVerdict)
    (p : Post) : Post :=
  match outcome with
  | .ok v =>
    if v.is_approved then
      { p with
        moderation_checked_at := some now
        moderation_reason := some (if v.reason == "" then "Approved" else v.reason) }
    else
      { p with
        status := "warning"
        moderation_checked_at := some now
        moderation_reason := some v.reason
        publish_at := none }
  | .error msg =>
    { p with
      moderation_checked_at := some now
      moderation_reason := some ("Moderation error: " ++ msg) }

/-- `user?.email || post.client_key || 'Unknown'`, where the lookup runs
only when `post.client_key` is truthy (JS: the empty string is falsy). -/
def resolveUserEmail (lookup : Lookup) (p : Post) : String :=
  let user : Option User :=
    match p.client_key with
    | some k => if k == "" then none else lookup k
    | none => none
  match user with
  | some u =>
    if u.email == "" then
      match p.client_key with
      | some k => if k == "" then "Unknown" else k
      | none => "Unknown"
    else u.email
  | none =>
    match p.client_key with
    | some k => if k == "" then "Unknown" else k
    | none => "Unknown"

/-- The per-post loop of `processPendingModeration`, threading the store
and the notification calls made so far. -/
def modLoop (lookup : Lookup) (adapter : Adapter) (now : Nat)
    (batch : List Post) (st : List Post × List Notification) :
    List Post × List Notification :=
  batch.foldl
    (fun st p =>
      let outcome := adapter p.text
      let db' := updateById st.1 p.id (applyModeration now outcome)
      let notes :=
        match outcome with
        | .ok v =>
          if v.is_approved then st.2
          else st.2 ++ [⟨p.id, p.text, resolveUserEmail lookup p, v.reason⟩]
        | .error _ => st.2
      (db', notes))
    st

/-- Phase 1 (`processPendingModeration`): select the batch once, then
process each post independently; returns the updated store and the
notification calls attempted. -/
def processPendingModeration (lookup : Lookup) (adapter : Adapter)
    (now : Nat) (db : List Post) : List Post × List Notification :=
  modLoop lookup adapter now (selectPendingModeration db) (db, [])

/-- Selection predicate of the phase-2 publish sweep: `status = 'draft'
AND publish_at IS NOT NULL AND publish_at <= now AND
moderation_checked_at IS NOT NULL`. -/
def publishPred (now : Nat) (p : Post) : Bool :=
  p.status == "draft" &&
    (match p.publish_at with
     | some t => decide (t ≤ now)
     | none => false) &&
    p.moderation_checked_at.isSome

/-- The phase-2 batch: matching rows, `LIMIT 10`. -/
def selectToPublish (now : Nat) (db : List Post) : List Post :=
  (db.filter (publishPred now)).take 10

/-- The publish update: `status = 'published'`,
`pub_date = COALESCE(pub_date, now)`, `updated_at = now`. -/
def publishUpdate (now : Nat) (p : Post) : Post :=
  { p with
    status := "published"
    pub_date := some (p.pub_date.getD now)
    updated_at := now }

/-- Phase 2 (`processScheduledPublishing`): publish the batch, invoking
the feed-cache-invalidation hook once per published post when registered.
Returns the store, the list of post ids the hook was invoked for, and the
function's return value `postsToPublish.length`. -/
def processScheduledPublishing (hookRegistered : Bool) (now : Nat)
    (db : List Post) : List Post × List Nat × Nat :=
  let batch := selectToPublish now db
  let db' := batch.foldl (fun acc p => updateById acc p.id (publishUpdate now)) db
  (db', if hookRegistered then batch.map Post.id else [], batch.length)

/-- One worker tick (`workerTick`): phase 1 first, then phase 2 on the
store phase 1 produced.  `t1`/`t2` are the clock readings of the two
phases. -/
def workerTick (lookup : Lookup) (adapter : Adapter) (hookRegistered : Bool)
    (t1 t2 : Nat) (db : List Post) :
    List Post × List Notification × List Nat × Nat :=
  let (db1, notes) := processPendingModeration lookup adapter t1 db
  let (db2, hooks, n) := processScheduledPublishing hookRegistered t2 db1
  (db2, notes, hooks, n)

/-- Outcome of one tick body: normal return, or an exception escaping the
two phases with the store as the partially-updated body left it. -/
inductive TickOutcome (σ : Type) where
  | ok (s : σ)
  | raised (s : σ) (msg : String)

/-- One interval step: run the tick body on the current state; whether it
returns or raises, the catch swallows the exception and the interval
continues with the state the body left behind. -/
def tickStep {σ : Type} (acc : σ × Nat) (body : σ → TickOutcome σ) :
    σ × Nat :=
  match body acc.1 with
  | .ok s' => (s', acc.2 + 1)
  | .raised s' _ => (s', acc.2 + 1)

/-- The `try/catch` around the tick body plus the interval: every
scheduled tick body runs, a raised tick is caught and logged, and later
ticks still run.  Returns the final state and the number of tick bodies
executed. -/
def runTicksWithCatch {σ : Type} (bodies : List (σ → TickOutcome σ))
    (init : σ) : σ × Nat :=
  bodies.foldl tickStep (init, 0)

/-! ## Scheduler entry point and ingest integration -/

/-- Milliseconds per hour; `publishAt.setHours(publishAt.getHours() + n)`
advances the clock by `n` hours. -/
def msPerHour : Nat := 3600000

/-- The default `delayHours` of `schedulePostForAutoPublish`. -/
def defaultDelayHours : Nat := 6

/-- `schedulePostForAutoPublish(postId, delayHours)`: compute
`publish_at = now + delayHours` hours, persist only that field on the
post, and return the computed deadline. -/
def schedulePostForAutoPublish (db : List Post) (postId : Nat) (now : Nat)
    (delayHours : Nat) : List Post × Nat :=
  let publishAt := now + delayHours * msPerHour
  (updateById db postId (fun p => { p with publish_at := some publishAt }),
   publishAt)

/-- The fields of the `/ingest/text` response that the auto-publish
branch controls, plus the resulting store. -/
structure IngestOutcome where
  db : List Post
  auto_publish_scheduled : Bool
  publish_at : Option Nat
deriving Repr, DecidableEq

/-- The auto-publish branch of `/ingest/text` (`src/routes/ingest.js`):
when `client_key` is truthy, the owner resolves, and
`user.auto_publish_enabled` holds, schedule with the default delay of 6
hours and surface the deadline; otherwise schedule nothing. -/
def ingestAutoPublish (lookup : Lookup) (clientKey : Option String)
    (postId : Nat) (now : Nat) (db : List Post) : IngestOutcome :=
  match clientKey with
  | none => ⟨db, false, none⟩
  | some k =>
    if k == "" then ⟨db, false, none⟩
    else
      match lookup k with
      | none => ⟨db, false, none⟩
      | some u =>
        if u.auto_publish_enabled then
          let r := schedulePostForAutoPublish db postId now defaultDelayHours
          ⟨r.1, true, some r.2⟩
        else ⟨db, false, none⟩

/-! ## The rejection notification email (`sendModerationRejectionEmail`) -/

/-- The email configuration fields this function reads:
`config.email.host`, `config.email.user`, `config.email.fromName`, and
`config.auth?.adminUser`. -/
structure EmailConfig where
  host : String
  user : String
  fromName : String
  adminUser : Option String
deriving Repr, DecidableEq

/-- `getTransporter()` returns null when `config.email.host` or
`config.email.user` is missing (falsy). -/
def transporterConfigured (cfg : EmailConfig) : Bool :=
  ¬ cfg.host == "" && ¬ cfg.user == ""

/-- The recipient: `config.auth?.adminUser || fromEmail`, falling back to
the sending account address `config.email.user`. -/
def adminRecipient (cfg : EmailConfig) : String :=
  match cfg.adminUser with
  | some a => if a == "" then cfg.user else a
  | none => cfg.user

/-- `postText.length > 500 ? postText.slice(0, 500) + '...' : postText`. -/
def truncatePostText (postText : String) : String :=
  if postText.length > 500 then String.mk (postText.data.take 500) ++ "..."
  else postText

/-- The plain-text body of the rejection email, after `.trim()`. -/
def rejectionTextBody (postId : Nat) (userEmail reason truncated : String) :
    String :=
  "Automatische Moderation hat einen Post abgelehnt.\n\nPost ID: #"
    ++ toString postId
    ++ "\nBenutzer: " ++ userEmail
    ++ "\nGrund: " ++ reason
    ++ "\n\nPost-Text:\n" ++ truncated
    ++ "\n\n---\nSquare Publisher - Automatische Moderation"

/-- The HTML body of the rejection email, after `.trim()`; the truncated
post text is angle-bracket-escaped, the other interpolations are not. -/
def rejectionHtmlBody (postId : Nat) (userEmail reason truncated : String) :
    String :=
  "<!DOCTYPE html>\n<html>\n<head>\n  <meta charset=\"utf-8\">\n  <style>\n"
    ++ "    body \x7b font-family: -apple-system, BlinkMacSystemFont, \x27Segoe UI\x27, Roboto, sans-serif; line-height: 1.6; color: #333; \x7d\n"
    ++ "    .container \x7b max-width: 600px; margin: 0 auto; padding: 20px; \x7d\n"
    ++ "    .alert \x7b background: #fef2f2; border: 1px solid #fecaca; border-radius: 8px; padding: 16px; margin-bottom: 20px; \x7d\n"
    ++ "    .alert-title \x7b color: #dc2626; font-weight: 600; margin: 0 0 8px 0; \x7d\n"
    ++ "    .meta \x7b background: #f3f4f6; padding: 12px; border-radius: 6px; margin: 16px 0; \x7d\n"
    ++ "    .meta-row \x7b display: flex; margin-bottom: 4px; \x7d\n"
    ++ "    .meta-label \x7b font-weight: 500; width: 80px; \x7d\n"
    ++ "    .post-text \x7b background: #fff; border: 1px solid #e5e7eb; padding: 12px; border-radius: 6px; white-space: pre-wrap; \x7d\n"
    ++ "    .footer \x7b margin-top: 30px; font-size: 12px; color: #6b7280; \x7d\n"
    ++ "  </style>\n</head>\n<body>\n  <div class=\"container\">\n    <div class=\"alert\">\n"
    ++ "      <h2 class=\"alert-title\">⚠️ Post abgelehnt</h2>\n"
    ++ "      <p style=\"margin: 0;\">Die automatische Moderation hat einen Post als ungeeignet markiert.</p>\n"
    ++ "    </div>\n    \n    <div class=\"meta\">\n"
    ++ "      <div class=\"meta-row\"><span class=\"meta-label\">Post ID:</span> #" ++ toString postId ++ "</div>\n"
    ++ "      <div class=\"meta-row\"><span class=\"meta-label\">Benutzer:</span> " ++ userEmail ++ "</div>\n"
    ++ "      <div class=\"meta-row\"><span class=\"meta-label\">Grund:</span> " ++ reason ++ "</div>\n"
    ++ "    </div>\n    \n    <h3>Post-Text:</h3>\n    <div class=\"post-text\">"
    ++ ((truncated.replace "<" "&lt;").replace ">" "&gt;")
    ++ "</div>\n    \n    <div class=\"footer\">\n      <p>Square Publisher - Automatische Moderation</p>\n    </div>\n  </div>\n</body>\n</html>"

/-- The message handed to `transport.sendMail`. -/
structure Mail where
  fromAddr : String
  toAddr : String
  subject : String
  textBody : String
  htmlBody : String
deriving Repr, DecidableEq

/-- `sendModerationRejectionEmail`: when the transporter is unconfigured,
no message is built (the function warns and returns false); otherwise the
message sent to `transport.sendMail`. -/
def sendModerationRejectionEmail (cfg : EmailConfig) (postId : Nat)
    (postText userEmail reason : String) : Option Mail :=
  if transporterConfigured cfg then
    let truncated := truncatePostText postText
    some
      { fromAddr := "\"" ++ cfg.fromName ++ "\" <" ++ cfg.user ++ ">"
        toAddr := adminRecipient cfg
        subject := "[Moderation] Post #" ++ toString postId ++ " abgelehnt"
        textBody := rejectionTextBody postId userEmail reason truncated
        htmlBody := rejectionHtmlBody postId userEmail reason truncated }
  else none

/-- The boolean the function returns: false when unconfigured, otherwise
the outcome of the `sendMail` attempt (`sendOk`; a throwing transport is
caught and converted to false). -/
def sendModerationRejectionEmailResult (cfg : EmailConfig) (sendOk : Bool)
    (postId : Nat) (postText userEmail reason : String) : Bool :=
  match sendModerationRejectionEmail cfg postId postText userEmail reason with
  | some _ => sendOk
  | none => false

/-! ## Helper lemmas: sequences of `UPDATE ... WHERE id = ?` statements -/

/-- The row a sequence of keyed updates leaves for an initial row `p`:
each update rewrites `p` exactly when the (current) id matches. -/
def applyOps (ops : List (Nat × (Post → Post))) (p : Post) : Post :=
  ops.foldl (fun q op => if q.id == op.1 then op.2 q else q) p

/-- The phase-1 updates, one per batch row. -/
def modOps (adapter : Adapter) (now : Nat) (batch : List Post) :
    List (Nat × (Post → Post)) :=
  batch.map (fun p => (p.id, applyModeration now (adapter p.text)))

/-- The notification calls phase 1 attempts: one per rejected batch row. -/
def modNotes (lookup : Lookup) (adapter : Adapter) (batch : List Post) :
    List Notification :=
  batch.filterMap (fun p =>
    match adapter p.text with
    | .ok v =>
      if v.is_approved then none
      else some ⟨p.id, p.text, resolveUserEmail lookup p, v.reason⟩
    | .error _ => none)

/-- The phase-2 updates, one per batch row. -/
def pubOps (now : Nat) (batch : List Post) : List (Nat × (Post → Post)) :=
  batch.map (fun p => (p.id, publishUpdate now))

lemma foldl_updateById (ops : List (Nat × (Post → Post))) (db : List Post) :
    ops.foldl (fun acc op => updateById acc op.1 op.2) db
      = db.map (applyOps ops) := by
  induction ops generalizing db with
  | nil =>
    have h : applyOps ([] : List (Nat × (Post → Post))) = fun p => p := rfl
    rw [List.foldl_nil, h, List.map_id']
  | cons op ops ih =>
    simp only [List.foldl_cons]
    rw [ih]
    simp only [updateById, List.map_map]
    apply List.map_congr_left
    intro p _
    rfl

lemma applyOps_nil (p : Post) : applyOps [] p = p := rfl

lemma applyOps_cons (i : Nat) (f : Post → Post)
    (ops : List (Nat × (Post → Post))) (p : Post) :
    applyOps ((i, f) :: ops) p
      = applyOps ops (if p.id == i then f p else p) := rfl

lemma applyOps_append (l₁ l₂ : List (Nat × (Post → Post))) (p : Post) :
    applyOps (l₁ ++ l₂) p = applyOps l₂ (applyOps l₁ p) := by
  simp [applyOps, List.foldl_append]

lemma applyOps_of_not_mem (ops : List (Nat × (Post → Post))) (p : Post)
    (h : ∀ op ∈ ops, p.id ≠ op.1) : applyOps ops p = p := by
  induction ops with
  | nil => rfl
  | cons op ops ih =>
    rw [applyOps_cons]
    have hne : (p.id == op.1) = false := by
      simp only [beq_eq_false_iff_ne, ne_eq]
      exact h op (List.mem_cons_self op ops)
    rw [hne]
    simp only [if_false, Bool.false_eq_true]
    exact ih (fun o ho => h o (List.mem_cons_of_mem op ho))

/-- A keyed-update sequence built by mapping a batch, applied to a batch
member, reduces to that member's own update, provided the batch ids are
unique and the update preserves the id. -/
lemma applyOps_map_of_mem (F : Post → Post → Post) (batch : List Post)
    (p : Post) (hid : (F p p).id = p.id)
    (hnd : (batch.map Post.id).Nodup) (hp : p ∈ batch) :
    applyOps (batch.map (fun q => (q.id, F q))) p = F p p := by
  obtain ⟨l₁, l₂, rfl⟩ := List.append_of_mem hp
  have hmap : (l₁ ++ p :: l₂).map Post.id
      = l₁.map Post.id ++ p.id :: l₂.map Post.id := by
    simp
  rw [hmap] at hnd
  rw [List.nodup_append] at hnd
  obtain ⟨-, hnd₂, hdisj⟩ := hnd
  rw [List.nodup_cons] at hnd₂
  obtain ⟨hnotl₂, -⟩ := hnd₂
  have hnotl₁ : p.id ∉ l₁.map Post.id := fun hmem =>
    hdisj hmem (List.mem_cons_self _ _)
  have hops : (l₁ ++ p :: l₂).map (fun q => (q.id, F q))
      = l₁.map (fun q => (q.id, F q))
        ++ (p.id, F p) :: l₂.map (fun q => (q.id, F q)) := by
    simp
  rw [hops, applyOps_append]
  have h₁ : applyOps (l₁.map (fun q => (q.id, F q))) p = p := by
    apply applyOps_of_not_mem
    intro op hop
    obtain ⟨q, hq, rfl⟩ := List.mem_map.mp hop
    intro hbad
    exact hnotl₁ (hbad ▸ List.mem_map_of_mem Post.id hq)
  rw [h₁, applyOps_cons]
  simp only [beq_self_eq_true, if_true]
  apply applyOps_of_not_mem
  intro op hop
  obtain ⟨q, hq, rfl⟩ := List.mem_map.mp hop
  rw [hid]
  intro hbad
  exact hnotl₂ (hbad ▸ List.mem_map_of_mem Post.id hq)

/-- A keyed-update sequence built by mapping a batch leaves a row alone
when the row's id occurs nowhere in the batch. -/
lemma applyOps_map_of_not_mem (F : Post → Post → Post) (batch : List Post)
    (q : Post) (h : q.id ∉ batch.map Post.id) :
    applyOps (batch.map (fun r => (r.id, F r))) q = q := by
  apply applyOps_of_not_mem
  intro op hop
  obtain ⟨r, hr, rfl⟩ := List.mem_map.mp hop
  intro hbad
  exact h (hbad ▸ List.mem_map_of_mem Post.id hr)

lemma mem_selectPendingModeration (db : List Post) (p : Post)
    (hp : p ∈ selectPendingModeration db) :
    p ∈ db ∧ pendingModerationPred p = true := by
  have h₁ : p ∈ db.filter pendingModerationPred :=
    List.mem_of_mem_take hp
  exact ⟨List.mem_of_mem_filter h₁, List.of_mem_filter h₁⟩

lemma mem_selectToPublish (now : Nat) (db : List Post) (p : Post)
    (hp : p ∈ selectToPublish now db) :
    p ∈ db ∧ publishPred now p = true := by
  have h₁ : p ∈ db.filter (publishPred now) :=
    List.mem_of_mem_take hp
  exact ⟨List.mem_of_mem_filter h₁, List.of_mem_filter h₁⟩

lemma selectPendingModeration_sublist (db : List Post) :
    List.Sublist (selectPendingModeration db) db :=
  (List.take_sublist _ _).trans (List.filter_sublist db)

lemma selectToPublish_sublist (now : Nat) (db : List Post) :
    List.Sublist (selectToPublish now db) db :=
  (List.take_sublist _ _).trans (List.filter_sublist db)

lemma nodup_ids_selectPendingModeration (db : List Post)
    (hnd : (db.map Post.id).Nodup) :
    ((selectPendingModeration db).map Post.id).Nodup :=
  hnd.sublist ((selectPendingModeration_sublist db).map Post.id)

lemma nodup_ids_selectToPublish (now : Nat) (db : List Post)
    (hnd : (db.map Post.id).Nodup) :
    ((selectToPublish now db).map Post.id).Nodup :=
  hnd.sublist ((selectToPublish_sublist now db).map Post.id)

lemma applyModeration_id (now : Nat) (o : Except String ModVerdict)
    (p : Post) : (applyModeration now o p).id = p.id := by
  cases o with
  | ok v =>
    by_cases h : v.is_approved = true <;> simp [applyModeration, h]
  | error msg => rfl

lemma publishUpdate_id (now : Nat) (p : Post) :
    (publishUpdate now p).id = p.id := rfl

/-- Unwinding of the phase-1 loop: the final store is the pointwise
application of the batch's keyed updates, and the notifications are the
rejected rows' calls in batch order. -/
lemma modLoop_eq (lookup : Lookup) (adapter : Adapter) (now : Nat)
    (batch : List Post) (db : List Post) (notes : List Notification) :
    modLoop lookup adapter now batch (db, notes)
      = ((modOps adapter now batch).foldl
           (fun acc op => updateById acc op.1 op.2) db,
         notes ++ modNotes lookup adapter batch) := by
  induction batch generalizing db notes with
  | nil => simp [modLoop, modOps, modNotes]
  | cons p batch ih =>
    show modLoop lookup adapter now batch _ = _
    cases houtcome : adapter p.text with
    | ok v =>
      by_cases happ : v.is_approved = true
      · rw [show (modLoop lookup adapter now batch
            (updateById db p.id (applyModeration now (adapter p.text)),
             match adapter p.text with
             | .ok v =>
               if v.is_approved then notes
               else notes ++ [⟨p.id, p.text, resolveUserEmail lookup p, v.reason⟩]
             | .error _ => notes)) = modLoop lookup adapter now batch
            (updateById db p.id (applyModeration now (adapter p.text)),
             notes) from by rw [houtcome]; simp [happ]]
        rw [ih]
        simp [modOps, modNotes, houtcome, happ]
      · rw [show (modLoop lookup adapter now batch
            (updateById db p.id (applyModeration now (adapter p.text)),
             match adapter p.text with
             | .ok v =>
               if v.is_approved then notes
               else notes ++ [⟨p.id, p.text, resolveUserEmail lookup p, v.reason⟩]
             | .error _ => notes)) = modLoop lookup adapter now batch
            (updateById db p.id (applyModeration now (adapter p.text)),
             notes ++ [⟨p.id, p.text, resolveUserEmail lookup p, v.reason⟩])
            from by rw [houtcome]; simp [happ]]
        rw [ih]
        simp [modOps, modNotes, houtcome, happ]
    | error msg =>
      rw [show (modLoop lookup adapter now batch
          (updateById db p.id (applyModeration now (adapter p.text)),
           match adapter p.text with
           | .ok v =>
             if v.is_approved then notes
             else notes ++ [⟨p.id, p.text, resolveUserEmail lookup p, v.reason⟩]
           | .error _ => notes)) = modLoop lookup adapter now batch
          (updateById db p.id (applyModeration now (adapter p.text)),
           notes) from by rw [houtcome]]
      rw [ih]
      simp [modOps, modNotes, houtcome]

/-- The phase-1 store: every row is rewritten by the batch's updates. -/
lemma processPendingModeration_fst (lookup : Lookup) (adapter : Adapter)
    (now : Nat) (db : List Post) :
    (processPendingModeration lookup adapter now db).1
      = db.map (applyOps (modOps adapter now (selectPendingModeration db))) := by
  rw [processPendingModeration, modLoop_eq, foldl_updateById]

/-- The phase-1 notification calls. -/
lemma processPendingModeration_snd (lookup : Lookup) (adapter : Adapter)
    (now : Nat) (db : List Post) :
    (processPendingModeration lookup adapter now db).2
      = modNotes lookup adapter (selectPendingModeration db) := by
  rw [processPendingModeration, modLoop_eq]
  simp

/-- The phase-2 store: every row is rewritten by the batch's updates. -/
lemma processScheduledPublishing_fst (hook : Bool) (now : Nat)
    (db : List Post) :
    (processScheduledPublishing hook now db).1
      = db.map (applyOps (pubOps now (selectToPublish now db))) := by
  show (selectToPublish now db).foldl _ db = _
  have h : (selectToPublish now db).foldl
      (fun acc p => updateById acc p.id (publishUpdate now)) db
      = (pubOps now (selectToPublish now db)).foldl
          (fun acc op => updateById acc op.1 op.2) db := by
    rw [pubOps, List.foldl_map]
  rw [h, foldl_updateById]

/-! ## Helper lemmas: the greedy brace span -/

lemma findIdx?_clean_append_cons {α : Type} (p : α → Bool) (pre : List α)
    (x : α) (suf : List α) (hpre : ∀ a ∈ pre, p a = false)
    (hx : p x = true) :
    List.findIdx? p (pre ++ x :: suf) = some pre.length := by
  rw [List.findIdx?_append, List.findIdx?_eq_none_iff.mpr hpre,
    List.findIdx?_cons, hx]
  simp

lemma extractBraceSpan_clean (pre mid suf : List Char)
    (hpre : lbrace ∉ pre) (hsuf : rbrace ∉ suf) :
    extractBraceSpan (String.mk (pre ++ lbrace :: (mid ++ rbrace :: suf)))
      = some (String.mk (lbrace :: (mid ++ [rbrace]))) := by
  have hb : List.findIdx? (fun c => c == lbrace)
      (pre ++ lbrace :: (mid ++ rbrace :: suf)) = some pre.length := by
    apply findIdx?_clean_append_cons
    · intro a ha
      exact beq_eq_false_iff_ne.mpr (fun h => hpre (h ▸ ha))
    · exact beq_self_eq_true lbrace
  have hrev : (pre ++ lbrace :: (mid ++ rbrace :: suf)).reverse
      = suf.reverse ++ rbrace :: (mid.reverse ++ lbrace :: pre.reverse) := by
    simp
  have he : lastIdxOf rbrace (pre ++ lbrace :: (mid ++ rbrace :: suf))
      = some (pre.length + mid.length + 1) := by
    unfold lastIdxOf
    rw [hrev, findIdx?_clean_append_cons]
    · simp only [List.length_append, List.length_cons, List.length_reverse]
      congr 1
      omega
    · intro a ha
      exact beq_eq_false_iff_ne.mpr
        (fun h => hsuf (h ▸ (List.mem_reverse.mp ha)))
    · exact beq_self_eq_true rbrace
  unfold extractBraceSpan
  show (match
      List.findIdx? (fun c => c == lbrace)
        (pre ++ lbrace :: (mid ++ rbrace :: suf)),
      lastIdxOf rbrace (pre ++ lbrace :: (mid ++ rbrace :: suf)) with
    | some b, some e =>
      if b < e then
        some (String.mk
          (((pre ++ lbrace :: (mid ++ rbrace :: suf)).drop b).take (e - b + 1)))
      else none
    | _, _ => none) = some (String.mk (lbrace :: (mid ++ [rbrace])))
  rw [hb, he]
  have hlt : pre.length < pre.length + mid.length + 1 := by omega
  simp only [hlt, if_true]
  congr 2
  have harith : pre.length + mid.length + 1 - pre.length + 1
      = mid.length + 2 := by omega
  rw [harith]
  have hsplit : pre ++ lbrace :: (mid ++ rbrace :: suf)
      = pre ++ ((lbrace :: (mid ++ [rbrace])) ++ suf) := by
    simp
  rw [hsplit, List.drop_left]
  exact List.take_left' (by simp)

/-! ## Helper lemmas: per-update field behaviour -/

lemma applyModeration_checked (now : Nat) (o : Except String ModVerdict)
    (p : Post) : (applyModeration now o p).moderation_checked_at = some now := by
  cases o with
  | ok v => by_cases h : v.is_approved = true <;> simp [applyModeration, h]
  | error m => rfl

lemma applyModeration_updated_at (now : Nat) (o : Except String ModVerdict)
    (p : Post) : (applyModeration now o p).updated_at = p.updated_at := by
  cases o with
  | ok v => by_cases h : v.is_approved = true <;> simp [applyModeration, h]
  | error m => rfl

lemma applyOps_id (ops : List (Nat × (Post → Post)))
    (h : ∀ op ∈ ops, ∀ q, (op.2 q).id = q.id) (p : Post) :
    (applyOps ops p).id = p.id := by
  induction ops generalizing p with
  | nil => rfl
  | cons op ops ih =>
    rw [applyOps_cons]
    by_cases hb : (p.id == op.1) = true
    · simp only [hb, if_true]
      rw [ih (fun o ho q => h o (List.mem_cons_of_mem _ ho) q)]
      exact h op (List.mem_cons_self _ _) p
    · simp only [Bool.not_eq_true] at hb
      simp only [hb, Bool.false_eq_true, if_false]
      exact ih (fun o ho q => h o (List.mem_cons_of_mem _ ho)  q) p

lemma modOps_id_preserving (adapter : Adapter) (now : Nat)
    (batch : List Post) :
    ∀ op ∈ modOps adapter now batch, ∀ q : Post, (op.2 q).id = q.id := by
  intro op hop q
  obtain ⟨p, hp, rfl⟩ := List.mem_map.mp hop
  exact applyModeration_id now (adapter p.text) q

lemma ids_processPendingModeration (lookup : Lookup) (adapter : Adapter)
    (now : Nat) (db : List Post) :
    ((processPendingModeration lookup adapter now db).1).map Post.id
      = db.map Post.id := by
  rw [processPendingModeration_fst, List.map_map]
  apply List.map_congr_left
  intro p _
  exact applyOps_id _ (modOps_id_preserving adapter now _) p

lemma applyOps_modOps_of_mem (adapter : Adapter) (now : Nat)
    (batch : List Post) (p : Post) (hnd : (batch.map Post.id).Nodup)
    (hp : p ∈ batch) :
    applyOps (modOps adapter now batch) p
      = applyModeration now (adapter p.text) p :=
  applyOps_map_of_mem (fun q => applyModeration now (adapter q.text)) batch p
    (applyModeration_id now _ p) hnd hp

lemma applyOps_pubOps_of_mem (now : Nat) (batch : List Post) (p : Post)
    (hnd : (batch.map Post.id).Nodup) (hp : p ∈ batch) :
    applyOps (pubOps now batch) p = publishUpdate now p :=
  applyOps_map_of_mem (fun _ => publishUpdate now) batch p
    (publishUpdate_id now p) hnd hp

lemma id_notin_pending_batch {db : List Post}
    (hnd : (db.map Post.id).Nodup) {q : Post} (hq : q ∈ db)
    (hpred : pendingModerationPred q = false) :
    q.id ∉ (selectPendingModeration db).map Post.id := by
  intro hmem
  obtain ⟨r, hr, hid⟩ := List.mem_map.mp hmem
  obtain ⟨hrdb, hrpred⟩ := mem_selectPendingModeration db r hr
  have heq : r = q := List.inj_on_of_nodup_map hnd hrdb hq hid
  rw [heq, hpred] at hrpred
  exact Bool.false_ne_true hrpred

/-! ## Claim theorems: the moderation adapter -/

/-- C5: for every raw model response from which `JSON.parse` of the
extracted span fails, the adapter returns — it does not throw — the
synthetic rejection verdict, whose reason is exactly
`Invalid JSON response from moderation LLM`.  In particular the plain-text
response `sorry, cannot process` yields that verdict (see the witness). -/
theorem claim_C5_invalid_json_verdict (content : String)
    (h : jsonParse ((extractBraceSpan (jsTrim content)).getD (jsTrim content))
      = none) :
    moderatePostContent content = invalidJsonVerdict
    ∧ invalidJsonVerdict.is_approved = false
    ∧ invalidJsonVerdict.reason
        = Json.str "Invalid JSON response from moderation LLM" := by
  refine ⟨?_, rfl, rfl⟩
  show (match jsonParse ((extractBraceSpan (jsTrim content)).getD (jsTrim content)) with
    | none => invalidJsonVerdict
    | some .null => invalidJsonVerdict
    | some j => verdictOfJson j) = invalidJsonVerdict
  rw [h]

/-- C5 witness: the adapter on the concrete plain-text response
`sorry, cannot process`. -/
theorem claim_C5_witness :
    jsonParse ((extractBraceSpan (jsTrim "sorry, cannot process")).getD
        (jsTrim "sorry, cannot process")) = none
    ∧ moderatePostContent "sorry, cannot process" = invalidJsonVerdict
    ∧ invalidJsonVerdict.is_approved = false
    ∧ invalidJsonVerdict.reason
        = Json.str "Invalid JSON response from moderation LLM" :=
  ⟨rfl, claim_C5_invalid_json_verdict "sorry, cannot process" rfl⟩

/-- C7 counterexample: a response whose FIRST BALANCED brace span is a
valid verdict object, followed by prose containing a further brace pair.
The claimed policy (parse the first balanced span) would approve it; the
adapter's greedy regex takes the span up to the LAST closing brace, the
parse fails, and the synthetic rejection verdict comes back instead. -/
theorem claim_C7_counterexample :
    firstBalancedBraceSpan
        "Verdict: \x7b\"is_approved\": true, \"reason\": \"ok\"\x7d tail \x7bx\x7d"
      = some "\x7b\"is_approved\": true, \"reason\": \"ok\"\x7d"
    ∧ (jsonParse "\x7b\"is_approved\": true, \"reason\": \"ok\"\x7d").isSome = true
    ∧ (∀ j, jsonParse "\x7b\"is_approved\": true, \"reason\": \"ok\"\x7d" = some j →
        (verdictOfJson j).is_approved = true)
    ∧ moderatePostContent
        "Verdict: \x7b\"is_approved\": true, \"reason\": \"ok\"\x7d tail \x7bx\x7d"
      = invalidJsonVerdict
    ∧ invalidJsonVerdict.is_approved = false := by
  refine ⟨rfl, rfl, ?_, rfl, rfl⟩
  intro j hj
  have hj' : j = Json.obj
      [("is_approved", Json.bool true), ("reason", Json.str "ok")] :=
    Option.some.inj (by rw [← hj]; rfl)
  rw [hj']
  rfl

/-- C7 (amended): the adapter extracts the span from the FIRST opening
brace to the LAST closing brace of the (trimmed) response — the greedy
regex — not the first balanced span.  A response whose braces are exactly
one valid JSON object wrapped in brace-free prose or code fences is
parsed to that object's verdict; the possibility left open by the original
claim — extra trailing text with further braces — instead extends the
span (see the counterexample). -/
theorem claim_C7_amended_greedy_span :
    (∀ pre mid suf : List Char, lbrace ∉ pre → rbrace ∉ suf →
      extractBraceSpan (String.mk (pre ++ lbrace :: (mid ++ rbrace :: suf)))
        = some (String.mk (lbrace :: (mid ++ [rbrace]))))
    ∧ (∀ content : String, ∀ j : Json,
        jsonParse ((extractBraceSpan (jsTrim content)).getD (jsTrim content))
          = some j →
        j ≠ Json.null →
        moderatePostContent content = verdictOfJson j)
    ∧ moderatePostContent
        "```json\n\x7b\"is_approved\": true, \"reason\": \"fine\"\x7d\n```"
      = ⟨true, Json.str "fine"⟩ := by
  refine ⟨extractBraceSpan_clean, ?_, rfl⟩
  intro content j hj hnotnull
  show (match jsonParse ((extractBraceSpan (jsTrim content)).getD (jsTrim content)) with
    | none => invalidJsonVerdict
    | some .null => invalidJsonVerdict
    | some j => verdictOfJson j) = verdictOfJson j
  rw [hj]
  cases j with
  | null => exact absurd rfl hnotnull
  | bool b => rfl
  | num r => rfl
  | str s => rfl
  | arr xs => rfl
  | obj kvs => rfl

/-! ## Claim theorems: the worker phases -/

/-- C1: a post selected by the phase-1 sweep has a null
`moderation_checked_at`; every adapter outcome — approval, rejection or
error — sets it to the sweep time in that post's update; a post whose
`moderation_checked_at` is already non-null fails the selection predicate
and is left untouched by the sweep, so the field moves from null to
non-null at most once. -/
theorem claim_C1_moderation_checked_once (lookup : Lookup) (adapter : Adapter)
    (now : Nat) (db : List Post) (hnd : (db.map Post.id).Nodup) :
    (∀ q ∈ db, q.moderation_checked_at.isSome = true →
      pendingModerationPred q = false
      ∧ applyOps (modOps adapter now (selectPendingModeration db)) q = q)
    ∧ (∀ p ∈ selectPendingModeration db,
      p.moderation_checked_at = none
      ∧ (applyOps (modOps adapter now (selectPendingModeration db))
          p).moderation_checked_at = some now)
    ∧ (processPendingModeration lookup adapter now db).1
        = db.map (applyOps (modOps adapter now (selectPendingModeration db))) := by
  refine ⟨?_, ?_, processPendingModeration_fst lookup adapter now db⟩
  · intro q hq hsome
    have hpred : pendingModerationPred q = false := by
      cases hc : q.moderation_checked_at with
      | none => rw [hc] at hsome; exact absurd hsome (by simp)
      | some t => simp [pendingModerationPred, hc]
    refine ⟨hpred, ?_⟩
    exact applyOps_map_of_not_mem _ _ q (id_notin_pending_batch hnd hq hpred)
  · intro p hp
    obtain ⟨hpdb, hpred⟩ := mem_selectPendingModeration db p hp
    have hnone : p.moderation_checked_at = none := by
      simp only [pendingModerationPred, Bool.and_eq_true] at hpred
      exact Option.isNone_iff_eq_none.mp hpred.1.2
    refine ⟨hnone, ?_⟩
    rw [applyOps_modOps_of_mem adapter now (selectPendingModeration db) p
      (nodup_ids_selectPendingModeration db hnd) hp]
    exact applyModeration_checked now _ p

/-- C2: a phase-1 post the adapter rejects gets, in one update,
`status = warning`, `moderation_checked_at = now`, `moderation_reason` set
to the verdict's reason and `publish_at = NULL`; the rejection
notification for it is attempted with the `userEmail` resolved from the
owner's email via `client_key`, falling back to the raw `client_key`,
falling back to `Unknown`; the updated row fails the phase-2 selection
predicate at every later time. -/
theorem claim_C2_rejection_terminal (lookup : Lookup) (adapter : Adapter)
    (now : Nat) (db : List Post) (p : Post) (v : ModVerdict)
    (hnd : (db.map Post.id).Nodup)
    (hp : p ∈ selectPendingModeration db)
    (hv : adapter p.text = Except.ok v)
    (hrej : v.is_approved = false) :
    (applyModeration now (Except.ok v) p).status = "warning"
    ∧ (applyModeration now (Except.ok v) p).moderation_checked_at = some now
    ∧ (applyModeration now (Except.ok v) p).moderation_reason = some v.reason
    ∧ (applyModeration now (Except.ok v) p).publish_at = none
    ∧ applyOps (modOps adapter now (selectPendingModeration db)) p
        = applyModeration now (Except.ok v) p
    ∧ (processPendingModeration lookup adapter now db).1
        = db.map (applyOps (modOps adapter now (selectPendingModeration db)))
    ∧ (⟨p.id, p.text, resolveUserEmail lookup p, v.reason⟩ : Notification)
        ∈ (processPendingModeration lookup adapter now db).2
    ∧ (∀ k u, p.client_key = some k → ¬ k = "" → lookup k = some u →
        ¬ u.email = "" → resolveUserEmail lookup p = u.email)
    ∧ (∀ k, p.client_key = some k → ¬ k = "" → lookup k = none →
        resolveUserEmail lookup p = k)
    ∧ (p.client_key = none → resolveUserEmail lookup p = "Unknown")
    ∧ (∀ t, publishPred t (applyModeration now (Except.ok v) p) = false) := by
  refine ⟨by simp [applyModeration, hrej], by simp [applyModeration, hrej],
    by simp [applyModeration, hrej], by simp [applyModeration, hrej],
    ?_, processPendingModeration_fst lookup adapter now db, ?_, ?_, ?_, ?_, ?_⟩
  · rw [applyOps_modOps_of_mem adapter now (selectPendingModeration db) p
      (nodup_ids_selectPendingModeration db hnd) hp, hv]
  · rw [processPendingModeration_snd]
    refine List.mem_filterMap.mpr ⟨p, hp, ?_⟩
    rw [hv]
    simp [hrej]
  · intro k u hck hkne hlku hue
    simp [resolveUserEmail, hck, hlku, beq_eq_false_iff_ne.mpr hkne,
      beq_eq_false_iff_ne.mpr hue]
  · intro k hck hkne hlk
    simp [resolveUserEmail, hck, hlk, beq_eq_false_iff_ne.mpr hkne]
  · intro hck
    simp [resolveUserEmail, hck]
  · intro t
    simp [publishPred, applyModeration, hrej]

/-- C6: a phase-1 post whose adapter call throws gets
`moderation_checked_at = now` and a `Moderation error: `-prefixed reason,
keeps `status = draft` and its `publish_at`, is never re-selected for
moderation (its check timestamp is set), and the rest of the batch is
still processed — every selected post's update sets the check
timestamp. -/
theorem claim_C6_adapter_error (lookup : Lookup) (adapter : Adapter)
    (now : Nat) (db : List Post) (p : Post) (msg : String)
    (hnd : (db.map Post.id).Nodup)
    (hp : p ∈ selectPendingModeration db)
    (herr : adapter p.text = Except.error msg) :
    (applyModeration now (Except.error msg) p).moderation_checked_at = some now
    ∧ (applyModeration now (Except.error msg) p).moderation_reason
        = some ("Moderation error: " ++ msg)
    ∧ (applyModeration now (Except.error msg) p).status = p.status
    ∧ p.status = "draft"
    ∧ (applyModeration now (Except.error msg) p).publish_at = p.publish_at
    ∧ p.publish_at.isSome = true
    ∧ pendingModerationPred (applyModeration now (Except.error msg) p) = false
    ∧ applyOps (modOps adapter now (selectPendingModeration db)) p
        = applyModeration now (Except.error msg) p
    ∧ (∀ q ∈ selectPendingModeration db,
        (applyOps (modOps adapter now (selectPendingModeration db))
          q).moderation_checked_at = some now)
    ∧ (processPendingModeration lookup adapter now db).1
        = db.map (applyOps (modOps adapter now (selectPendingModeration db))) := by
  obtain ⟨hpdb, hpred⟩ := mem_selectPendingModeration db p hp
  simp only [pendingModerationPred, Bool.and_eq_true] at hpred
  refine ⟨rfl, rfl, rfl, ?_, rfl, hpred.1.1, ?_, ?_, ?_,
    processPendingModeration_fst lookup adapter now db⟩
  · exact beq_iff_eq.mp hpred.2
  · simp [pendingModerationPred, applyModeration]
  · rw [applyOps_modOps_of_mem adapter now (selectPendingModeration db) p
      (nodup_ids_selectPendingModeration db hnd) hp, herr]
  · intro q hq
    rw [applyOps_modOps_of_mem adapter now (selectPendingModeration db) q
      (nodup_ids_selectPendingModeration db hnd) hq]
    exact applyModeration_checked now _ q

/-! ## Fixtures for witnesses and counterexamples -/

/-- Fixture: owner lookup knowing exactly the client key `u1`. -/
def lookup₀ : Lookup := fun k =>
  if k == "u1" then some ⟨"owner@example.com", true⟩ else none

/-- Fixture: adapter approving everything with reason `ok`. -/
def adapterApprove : Adapter := fun _ => Except.ok ⟨true, "ok"⟩

/-- Fixture: adapter rejecting everything with reason `off-topic`. -/
def adapterReject : Adapter := fun _ => Except.ok ⟨false, "off-topic"⟩

/-- Fixture: adapter throwing `network down`. -/
def adapterThrow : Adapter := fun _ => Except.error "network down"

/-- Fixture: a pending-moderation draft. -/
def post₁ : Post :=
  { id := 1, text := "hello", client_key := some "u1", status := "draft"
    publish_at := some 50, moderation_checked_at := none
    moderation_reason := none, pub_date := none, updated_at := 42 }

/-- Fixture: an already-checked draft awaiting publication. -/
def post₂ : Post :=
  { id := 2, text := "world", client_key := none, status := "draft"
    publish_at := some 7, moderation_checked_at := some 10
    moderation_reason := some "Approved", pub_date := none, updated_at := 3 }

/-- Fixture: an already-checked draft, i-th of the phase-2 overflow. -/
def qPost (i : Nat) : Post :=
  { id := i, text := "x", client_key := none, status := "draft"
    publish_at := some 1, moderation_checked_at := some 1
    moderation_reason := some "Approved", pub_date := none, updated_at := 0 }

/-- Fixture: the eleventh post, still pending moderation. -/
def post₁₁ : Post :=
  { id := 11, text := "hello", client_key := none, status := "draft"
    publish_at := some 1, moderation_checked_at := none
    moderation_reason := none, pub_date := none, updated_at := 0 }

/-- Fixture: ten publish-eligible posts followed by the pending one. -/
def db₃ : List Post := (List.range 10).map (fun i => qPost (i + 1)) ++ [post₁₁]

/-! ## Claim theorems: publication, ordering, timestamps -/

lemma runTicks_aux {σ : Type} (bodies : List (σ → TickOutcome σ)) (s : σ)
    (n : Nat) :
    (bodies.foldl tickStep (s, n)).2 = n + bodies.length := by
  induction bodies generalizing s n with
  | nil => simp
  | cons b bodies ih =>
    simp only [List.foldl_cons, List.length_cons]
    have hstep : tickStep (s, n) b = ((tickStep (s, n) b).1, n + 1) := by
      cases hb : b s <;> simp [tickStep, hb]
    rw [hstep, ih]
    omega

/-- C4: a post selected by the phase-2 sweep is set to `published`, its
`pub_date` is set to the sweep time only when currently unset (an
already-set `pub_date` is kept), `updated_at` is bumped, and the
invalidation hook — when registered — is invoked exactly once for it;
without a registered hook no invocation happens. -/
theorem claim_C4_publish_update (hook : Bool) (now : Nat) (db : List Post)
    (p : Post) (hnd : (db.map Post.id).Nodup)
    (hp : p ∈ selectToPublish now db) :
    (publishUpdate now p).status = "published"
    ∧ (publishUpdate now p).pub_date = some (p.pub_date.getD now)
    ∧ (∀ d, p.pub_date = some d → (publishUpdate now p).pub_date = some d)
    ∧ (p.pub_date = none → (publishUpdate now p).pub_date = some now)
    ∧ (publishUpdate now p).updated_at = now
    ∧ applyOps (pubOps now (selectToPublish now db)) p = publishUpdate now p
    ∧ (processScheduledPublishing hook now db).1
        = db.map (applyOps (pubOps now (selectToPublish now db)))
    ∧ ((processScheduledPublishing true now db).2.1).count p.id = 1
    ∧ (processScheduledPublishing false now db).2.1 = [] := by
  refine ⟨rfl, rfl, ?_, ?_, rfl,
    applyOps_pubOps_of_mem now (selectToPublish now db) p
      (nodup_ids_selectToPublish now db hnd) hp,
    processScheduledPublishing_fst hook now db, ?_, rfl⟩
  · intro d hd
    simp [publishUpdate, hd]
  · intro hd
    simp [publishUpdate, hd]
  · have hhooks : (processScheduledPublishing true now db).2.1
        = (selectToPublish now db).map Post.id := rfl
    rw [hhooks]
    exact List.nodup_iff_count_eq_one.mp
      (nodup_ids_selectToPublish now db hnd) p.id
      (List.mem_map_of_mem Post.id hp)

/-- C9 (amended): only the publish update bumps `updated_at`; the
approval, rejection, and moderation-error updates of phase 1 leave it
unchanged. -/
theorem claim_C9_amended_updated_at (now : Nat)
    (o : Except String ModVerdict) (p : Post) :
    (publishUpdate now p).updated_at = now
    ∧ (applyModeration now o p).updated_at = p.updated_at :=
  ⟨rfl, applyModeration_updated_at now o p⟩

/-- C9 counterexample: the phase-1 approval update mutates the post
(setting its moderation fields) yet leaves `updated_at` at its old value
42 instead of bumping it to the sweep time 100. -/
theorem claim_C9_counterexample :
    pendingModerationPred post₁ = true
    ∧ (processPendingModeration lookup₀ adapterApprove 100 [post₁]).1
        = [{ post₁ with
               moderation_checked_at := some 100
               moderation_reason := some "ok" }]
    ∧ ({ post₁ with
           moderation_checked_at := some 100
           moderation_reason := some "ok" } : Post).updated_at
        = post₁.updated_at
    ∧ ¬ ({ post₁ with
             moderation_checked_at := some 100
             moderation_reason := some "ok" } : Post) = post₁ := by
  refine ⟨rfl, rfl, rfl, by decide⟩

/-- C3 (amended): within a tick phase 1 runs to completion before phase 2
starts (the tick is their sequential composition); a post approved in
phase 1 whose `publish_at` has passed is published in the same tick
PROVIDED it falls within the phase-2 batch of `LIMIT 10` (the original
claim omitted the batch bound — see the counterexample); and every
scheduled tick body runs even when earlier tick bodies raise (the
top-level catch). -/
theorem claim_C3_phase_order (lookup : Lookup) (adapter : Adapter)
    (hook : Bool) (t1 t2 : Nat) (db : List Post)
    (hnd : (db.map Post.id).Nodup) :
    ((workerTick lookup adapter hook t1 t2 db).1
      = (processScheduledPublishing hook t2
          ((processPendingModeration lookup adapter t1 db).1)).1)
    ∧ (∀ p v, p ∈ selectPendingModeration db →
        adapter p.text = Except.ok v → v.is_approved = true →
        applyModeration t1 (Except.ok v) p
            ∈ selectToPublish t2 ((processPendingModeration lookup adapter t1 db).1) →
        publishUpdate t2 (applyModeration t1 (Except.ok v) p)
            ∈ (workerTick lookup adapter hook t1 t2 db).1
          ∧ (publishUpdate t2 (applyModeration t1 (Except.ok v) p)).status
              = "published")
    ∧ (∀ bodies : List (List Post → TickOutcome (List Post)),
        ∀ init : List Post,
        (runTicksWithCatch bodies init).2 = bodies.length) := by
  refine ⟨rfl, ?_, ?_⟩
  · intro p v hp hv happ hsel
    have hdb1 : (((processPendingModeration lookup adapter t1 db).1).map
        Post.id).Nodup := by
      rw [ids_processPendingModeration]
      exact hnd
    obtain ⟨hmem1, -⟩ :=
      mem_selectToPublish t2 ((processPendingModeration lookup adapter t1 db).1)
        (applyModeration t1 (Except.ok v) p) hsel
    refine ⟨?_, rfl⟩
    have hrw : (workerTick lookup adapter hook t1 t2 db).1
        = ((processPendingModeration lookup adapter t1 db).1).map
            (applyOps (pubOps t2
              (selectToPublish t2
                ((processPendingModeration lookup adapter t1 db).1)))) := by
      exact processScheduledPublishing_fst hook t2 _
    rw [hrw]
    rw [← applyOps_pubOps_of_mem t2
      (selectToPublish t2 ((processPendingModeration lookup adapter t1 db).1))
      (applyModeration t1 (Except.ok v) p)
      (nodup_ids_selectToPublish t2 _ hdb1) hsel]
    exact List.mem_map_of_mem _ hmem1
  · intro bodies init
    have h := runTicks_aux bodies init 0
    rw [runTicksWithCatch, h, Nat.zero_add]

/-- C3 counterexample: with ten already-eligible posts ahead of it, the
post approved in this tick is the eleventh eligible row; the phase-2
sweep takes only `LIMIT 10` rows, so the approved post — although its
`publish_at` (1) is ≤ now (100) — is still a draft after the tick. -/
theorem claim_C3_counterexample :
    post₁₁ ∈ selectPendingModeration db₃
    ∧ adapterApprove post₁₁.text = Except.ok ⟨true, "ok"⟩
    ∧ (applyModeration 100 (Except.ok ⟨true, "ok"⟩) post₁₁).publish_at = some 1
    ∧ 1 ≤ 100
    ∧ ((workerTick lookup₀ adapterApprove true 100 100 db₃).1.filter
        (fun p => p.id == 11))
        = [{ post₁₁ with
               moderation_checked_at := some 100
               moderation_reason := some "ok" }]
    ∧ ({ post₁₁ with
           moderation_checked_at := some 100
           moderation_reason := some "ok" } : Post).status = "draft" := by
  exact ⟨by decide, rfl, rfl, by decide, by decide, rfl⟩

/-- C7 amended witness: the characterization and the parse rule applied
at concrete inputs. -/
theorem claim_C7_amended_witness :
    extractBraceSpan (String.mk
        ("pre ".data ++ lbrace :: ("\"a\": 1".data ++ rbrace :: " post".data)))
      = some (String.mk (lbrace :: ("\"a\": 1".data ++ [rbrace])))
    ∧ moderatePostContent
        "```json\n\x7b\"is_approved\": true, \"reason\": \"fine\"\x7d\n```"
      = ⟨true, Json.str "fine"⟩ :=
  ⟨(claim_C7_amended_greedy_span.1 "pre ".data "\"a\": 1".data " post".data
      (by decide) (by decide)),
   claim_C7_amended_greedy_span.2.2⟩

/-- C1 witness: the sweep at a concrete store holding one pending and one
already-checked post. -/
theorem claim_C1_witness :
    pendingModerationPred post₂ = false
    ∧ applyOps (modOps adapterApprove 100
        (selectPendingModeration [post₁, post₂])) post₂ = post₂
    ∧ post₁.moderation_checked_at = none
    ∧ (applyOps (modOps adapterApprove 100
        (selectPendingModeration [post₁, post₂]))
          post₁).moderation_checked_at = some 100
    ∧ (processPendingModeration lookup₀ adapterApprove 100
        [post₁, post₂]).1
        = [post₁, post₂].map (applyOps (modOps adapterApprove 100
            (selectPendingModeration [post₁, post₂]))) := by
  have h := claim_C1_moderation_checked_once lookup₀ adapterApprove 100
    [post₁, post₂] (by decide)
  have h₂ := h.1 post₂ (by decide) (by decide)
  have h₁ := h.2.1 post₁ (by decide)
  exact ⟨h₂.1, h₂.2, h₁.1, h₁.2, h.2.2⟩

/-- C2 witness: the rejection path at a concrete store and verdict. -/
theorem claim_C2_witness :
    (applyModeration 100 (Except.ok ⟨false, "off-topic"⟩) post₁).status
        = "warning"
    ∧ (applyModeration 100 (Except.ok ⟨false, "off-topic"⟩)
        post₁).publish_at = none
    ∧ (⟨1, "hello", resolveUserEmail lookup₀ post₁, "off-topic"⟩ :
        Notification)
        ∈ (processPendingModeration lookup₀ adapterReject 100 [post₁]).2
    ∧ resolveUserEmail lookup₀ post₁ = "owner@example.com"
    ∧ publishPred 7 (applyModeration 100
        (Except.ok ⟨false, "off-topic"⟩) post₁) = false := by
  have h := claim_C2_rejection_terminal lookup₀ adapterReject 100 [post₁]
    post₁ ⟨false, "off-topic"⟩ (by decide) (by decide) rfl rfl
  exact ⟨h.1, h.2.2.2.1, h.2.2.2.2.2.2.1,
    h.2.2.2.2.2.2.2.1 "u1" ⟨"owner@example.com", true⟩ rfl (by decide) rfl
      (by decide),
    h.2.2.2.2.2.2.2.2.2.2 7⟩

/-- C6 witness: the throwing-adapter path at a concrete store. -/
theorem claim_C6_witness :
    (applyModeration 100 (Except.error "network down")
        post₁).moderation_checked_at = some 100
    ∧ (applyModeration 100 (Except.error "network down")
        post₁).moderation_reason
        = some ("Moderation error: " ++ "network down")
    ∧ (applyModeration 100 (Except.error "network down") post₁).status
        = post₁.status
    ∧ post₁.status = "draft"
    ∧ (applyModeration 100 (Except.error "network down")
        post₁).publish_at = post₁.publish_at
    ∧ post₁.publish_at.isSome = true
    ∧ pendingModerationPred (applyModeration 100
        (Except.error "network down") post₁) = false := by
  have h := claim_C6_adapter_error lookup₀ adapterThrow 100 [post₁] post₁
    "network down" (by decide) (by decide) rfl
  exact ⟨h.1, h.2.1, h.2.2.1, h.2.2.2.1, h.2.2.2.2.1, h.2.2.2.2.2.1,
    h.2.2.2.2.2.2.1⟩

/-- C4 witness: the publish sweep at a concrete store holding one
eligible post. -/
theorem claim_C4_witness :
    (publishUpdate 100 post₂).status = "published"
    ∧ (publishUpdate 100 post₂).pub_date = some 100
    ∧ (publishUpdate 100 post₂).updated_at = 100
    ∧ ((processScheduledPublishing true 100 [post₂]).2.1).count 2 = 1
    ∧ (processScheduledPublishing false 100 [post₂]).2.1 = [] := by
  have h := claim_C4_publish_update true 100 [post₂] post₂ (by decide)
    (by decide)
  exact ⟨h.1, h.2.2.2.1 rfl, h.2.2.2.2.1, h.2.2.2.2.2.2.2.1,
    h.2.2.2.2.2.2.2.2⟩

/-- C3 witness: a post approved in phase 1 of a tick and published by
phase 2 of the same tick, plus the catch model at a concrete raising
tick list. -/
theorem claim_C3_witness :
    ((workerTick lookup₀ adapterApprove true 100 100 [post₁]).1
      = (processScheduledPublishing true 100
          ((processPendingModeration lookup₀ adapterApprove 100
            [post₁]).1)).1)
    ∧ publishUpdate 100 (applyModeration 100 (Except.ok ⟨true, "ok"⟩)
        post₁) ∈ (workerTick lookup₀ adapterApprove true 100 100 [post₁]).1
    ∧ (publishUpdate 100 (applyModeration 100 (Except.ok ⟨true, "ok"⟩)
        post₁)).status = "published"
    ∧ (runTicksWithCatch
        [fun s => TickOutcome.raised s "boom", fun s => TickOutcome.ok s]
        ([] : List Post)).2 = 2 := by
  have h := claim_C3_phase_order lookup₀ adapterApprove true 100 100
    [post₁] (by decide)
  have h₂ := h.2.1 post₁ ⟨true, "ok"⟩ (by decide) rfl rfl (by decide)
  exact ⟨h.1, h₂.1, h₂.2,
    h.2.2 [fun s => TickOutcome.raised s "boom", fun s => TickOutcome.ok s]
      []⟩

/-! ## Claim theorems: scheduler, ingest and notification email -/

/-- C8: the scheduler computes `publish_at = now + delayHours` hours
(6 by default), persists only that field on the addressed post, and
returns the deadline; the ingest path schedules with the 6-hour default
and surfaces `auto_publish_scheduled = true` with that deadline exactly
when the client key is truthy, resolves to an owner, and the owner has
auto-publish enabled; in every other case it surfaces
`auto_publish_scheduled = false` and `publish_at = null`. -/
theorem claim_C8_scheduler (db : List Post) (postId now delay : Nat)
    (lookup : Lookup) :
    (schedulePostForAutoPublish db postId now delay).2
        = now + delay * msPerHour
    ∧ (schedulePostForAutoPublish db postId now delay).1
        = db.map (fun p => if p.id == postId
            then { p with publish_at := some (now + delay * msPerHour) }
            else p)
    ∧ (∀ p : Post,
        ({ p with publish_at := some (now + delay * msPerHour) } : Post).id
            = p.id
        ∧ ({ p with publish_at := some (now + delay * msPerHour) } : Post).text
            = p.text
        ∧ ({ p with publish_at := some (now + delay * msPerHour) } :
            Post).client_key = p.client_key
        ∧ ({ p with publish_at := some (now + delay * msPerHour) } :
            Post).status = p.status
        ∧ ({ p with publish_at := some (now + delay * msPerHour) } :
            Post).moderation_checked_at = p.moderation_checked_at
        ∧ ({ p with publish_at := some (now + delay * msPerHour) } :
            Post).moderation_reason = p.moderation_reason
        ∧ ({ p with publish_at := some (now + delay * msPerHour) } :
            Post).pub_date = p.pub_date
        ∧ ({ p with publish_at := some (now + delay * msPerHour) } :
            Post).updated_at = p.updated_at)
    ∧ defaultDelayHours = 6
    ∧ (∀ k u, ¬ k = "" → lookup k = some u → u.auto_publish_enabled = true →
        ingestAutoPublish lookup (some k) postId now db
          = ⟨(schedulePostForAutoPublish db postId now 6).1, true,
             some (now + 6 * msPerHour)⟩)
    ∧ (∀ k, ¬ k = "" → lookup k = none →
        ingestAutoPublish lookup (some k) postId now db = ⟨db, false, none⟩)
    ∧ (∀ k u, ¬ k = "" → lookup k = some u →
        u.auto_publish_enabled = false →
        ingestAutoPublish lookup (some k) postId now db = ⟨db, false, none⟩)
    ∧ ingestAutoPublish lookup none postId now db = ⟨db, false, none⟩
    ∧ ingestAutoPublish lookup (some "") postId now db = ⟨db, false, none⟩ := by
  refine ⟨rfl, rfl, fun p => ⟨rfl, rfl, rfl, rfl, rfl, rfl, rfl, rfl⟩, rfl,
    ?_, ?_, ?_, rfl, rfl⟩
  · intro k u hk hlk he
    simp [ingestAutoPublish, beq_eq_false_iff_ne.mpr hk, hlk, he,
      schedulePostForAutoPublish, defaultDelayHours]
  · intro k hk hlk
    simp [ingestAutoPublish, beq_eq_false_iff_ne.mpr hk, hlk]
  · intro k u hk hlk he
    simp [ingestAutoPublish, beq_eq_false_iff_ne.mpr hk, hlk, he]

/-- C8 witness: the scheduler and the ingest branch at concrete inputs. -/
theorem claim_C8_witness :
    (schedulePostForAutoPublish [post₁] 1 1000 6).2 = 1000 + 6 * msPerHour
    ∧ defaultDelayHours = 6
    ∧ ingestAutoPublish lookup₀ (some "u1") 1 1000 [post₁]
        = ⟨(schedulePostForAutoPublish [post₁] 1 1000 6).1, true,
           some (1000 + 6 * msPerHour)⟩
    ∧ ingestAutoPublish lookup₀ (some "nobody") 1 1000 [post₁]
        = ⟨[post₁], false, none⟩
    ∧ ingestAutoPublish lookup₀ none 1 1000 [post₁]
        = ⟨[post₁], false, none⟩ := by
  have h := claim_C8_scheduler [post₁] 1 1000 6 lookup₀
  exact ⟨h.1, h.2.2.2.1,
    h.2.2.2.2.1 "u1" ⟨"owner@example.com", true⟩ (by decide) rfl rfl,
    h.2.2.2.2.2.1 "nobody" (by decide) rfl,
    h.2.2.2.2.2.2.2.1⟩

/-- C10: the rejection email is addressed to the configured admin user,
falling back to the sending account address; the `userEmail` argument
appears in the message body and never determines the recipient, the
subject, or the sender; with the transport unconfigured the function
returns false without building a message. -/
theorem claim_C10_rejection_email (cfg : EmailConfig) (postId : Nat)
    (postText userEmail reason : String) :
    (transporterConfigured cfg = false →
      sendModerationRejectionEmail cfg postId postText userEmail reason = none
      ∧ ∀ sendOk, sendModerationRejectionEmailResult cfg sendOk postId
          postText userEmail reason = false)
    ∧ (transporterConfigured cfg = true →
      (sendModerationRejectionEmail cfg postId postText userEmail
          reason).map Mail.toAddr = some (adminRecipient cfg)
      ∧ (sendModerationRejectionEmail cfg postId postText userEmail
          reason).map Mail.subject
          = some ("[Moderation] Post #" ++ toString postId ++ " abgelehnt")
      ∧ (sendModerationRejectionEmail cfg postId postText userEmail
          reason).map Mail.fromAddr
          = some ("\"" ++ cfg.fromName ++ "\" <" ++ cfg.user ++ ">")
      ∧ ∃ pre suf : String,
          (sendModerationRejectionEmail cfg postId postText userEmail
            reason).map Mail.textBody = some (pre ++ userEmail ++ suf))
    ∧ (∀ a, cfg.adminUser = some a → ¬ a = "" → adminRecipient cfg = a)
    ∧ (cfg.adminUser = none → adminRecipient cfg = cfg.user)
    ∧ (cfg.adminUser = some "" → adminRecipient cfg = cfg.user) := by
  refine ⟨?_, ?_, ?_, ?_, ?_⟩
  · intro h
    refine ⟨by simp [sendModerationRejectionEmail, h], ?_⟩
    intro sendOk
    simp [sendModerationRejectionEmailResult, sendModerationRejectionEmail, h]
  · intro h
    refine ⟨by simp [sendModerationRejectionEmail, h],
      by simp [sendModerationRejectionEmail, h],
      by simp [sendModerationRejectionEmail, h], ?_⟩
    refine ⟨"Automatische Moderation hat einen Post abgelehnt.\n\nPost ID: #"
        ++ toString postId ++ "\nBenutzer: ",
      "\nGrund: " ++ reason ++ "\n\nPost-Text:\n"
        ++ truncatePostText postText
        ++ "\n\n---\nSquare Publisher - Automatische Moderation", ?_⟩
    simp only [sendModerationRejectionEmail, h, if_true, Option.map_some]
    simp [rejectionTextBody, String.append_assoc]
  · intro a ha hane
    simp [adminRecipient, ha, beq_eq_false_iff_ne.mpr hane]
  · intro ha
    simp [adminRecipient, ha]
  · intro ha
    simp [adminRecipient, ha]

/-- Fixture: a fully configured email setup. -/
def cfg₀ : EmailConfig :=
  { host := "smtp.example.com", user := "noreply@example.com"
    fromName := "Square Publisher", adminUser := some "admin@example.com" }

/-- Fixture: an email setup with no SMTP host. -/
def cfgOff : EmailConfig :=
  { host := "", user := "noreply@example.com"
    fromName := "Square Publisher", adminUser := some "admin@example.com" }

/-- C10 witness: the recipient and the unconfigured path at concrete
inputs. -/
theorem claim_C10_witness :
    sendModerationRejectionEmail cfgOff 1 "body" "user@example.com" "r"
        = none
    ∧ sendModerationRejectionEmailResult cfgOff true 1 "body"
        "user@example.com" "r" = false
    ∧ (sendModerationRejectionEmail cfg₀ 1 "body" "user@example.com"
        "r").map Mail.toAddr = some (adminRecipient cfg₀)
    ∧ adminRecipient cfg₀ = "admin@example.com" := by
  have hoff :=
    (claim_C10_rejection_email cfgOff 1 "body" "user@example.com" "r").1 rfl
  have hon :=
    (claim_C10_rejection_email cfg₀ 1 "body" "user@example.com" "r").2.1 rfl
  have hadm :=
    (claim_C10_rejection_email cfg₀ 1 "body" "user@example.com"
      "r").2.2.1 "admin@example.com" rfl (by decide)
  exact ⟨hoff.1, hoff.2 true, hon.1, hadm⟩

end SquarePub
